import Mathlib

/-!
Verification development for the ai-docs-generator documentation pipeline.

The development shallowly embeds the core of `src/services/github_service.py`
and `src/services/documentation_service.py` (the modules the specification's
testable claims are about):

* Python's dynamically-typed JSON-like values are modelled by the inductive
  type `Val`; dictionary subscripting (`d[k]`, raising `KeyError`),
  `dict.get` with a default, `len`, truthiness and iteration are modelled by
  explicit `Except`-valued or total functions.
* External effects are oracles passed in as function parameters: the LLM
  backend is a function from prompt text to reply text, the vector store's
  similarity search is a function from query and `k` to a list of stored
  documents, and `json.dumps` / `json.loads` are a pair of functions related
  by a round-trip hypothesis where a theorem needs it.
* `for` loops that build a list or dict with exception propagation are
  modelled by the structurally recursive `exceptMapList` / `exceptFoldList`.
-/

/-- A Python/JSON value as handled by the services: `None`, booleans,
integers, strings, lists and string-keyed dictionaries. -/
inductive Val where
  | vnull : Val
  | vbool : Bool → Val
  | vnum : Int → Val
  | vstr : String → Val
  | vlist : List Val → Val
  | vdict : List (String × Val) → Val

mutual

/-- Structural equality on `Val`, mirroring Python `==` on JSON values. -/
def Val.beq : Val → Val → Bool
  | .vnull, .vnull => true
  | .vbool a, .vbool b => a == b
  | .vnum a, .vnum b => a == b
  | .vstr a, .vstr b => a == b
  | .vlist as, .vlist bs => Val.beqList as bs
  | .vdict as, .vdict bs => Val.beqDict as bs
  | _, _ => false

def Val.beqList : List Val → List Val → Bool
  | [], [] => true
  | a :: as, b :: bs => Val.beq a b && Val.beqList as bs
  | _, _ => false

def Val.beqDict : List (String × Val) → List (String × Val) → Bool
  | [], [] => true
  | (ka, va) :: as, (kb, vb) :: bs => ka == kb && Val.beq va vb && Val.beqDict as bs
  | _, _ => false

end

mutual

theorem Val.beq_refl : ∀ v : Val, Val.beq v v = true
  | .vnull => rfl
  | .vbool a => by simp [Val.beq]
  | .vnum a => by simp [Val.beq]
  | .vstr a => by simp [Val.beq]
  | .vlist as => by simpa [Val.beq] using Val.beqList_refl as
  | .vdict as => by simpa [Val.beq] using Val.beqDict_refl as

theorem Val.beqList_refl : ∀ xs : List Val, Val.beqList xs xs = true
  | [] => rfl
  | a :: as => by simp [Val.beqList, Val.beq_refl a, Val.beqList_refl as]

theorem Val.beqDict_refl : ∀ xs : List (String × Val), Val.beqDict xs xs = true
  | [] => rfl
  | (k, v) :: as => by simp [Val.beqDict, Val.beq_refl v, Val.beqDict_refl as]

end

mutual

theorem Val.eq_of_beq : ∀ a b : Val, Val.beq a b = true → a = b
  | .vnull, b, h => by cases b <;> simp_all [Val.beq]
  | .vbool x, b, h => by cases b <;> simp_all [Val.beq]
  | .vnum x, b, h => by cases b <;> simp_all [Val.beq]
  | .vstr x, b, h => by cases b <;> simp_all [Val.beq]
  | .vlist xs, .vlist bs, h => by
      rw [Val.eqList_of_beq xs bs (by simpa [Val.beq] using h)]
  | .vlist xs, .vnull, h => by simp [Val.beq] at h
  | .vlist xs, .vbool _, h => by simp [Val.beq] at h
  | .vlist xs, .vnum _, h => by simp [Val.beq] at h
  | .vlist xs, .vstr _, h => by simp [Val.beq] at h
  | .vlist xs, .vdict _, h => by simp [Val.beq] at h
  | .vdict xs, .vdict bs, h => by
      rw [Val.eqDict_of_beq xs bs (by simpa [Val.beq] using h)]
  | .vdict xs, .vnull, h => by simp [Val.beq] at h
  | .vdict xs, .vbool _, h => by simp [Val.beq] at h
  | .vdict xs, .vnum _, h => by simp [Val.beq] at h
  | .vdict xs, .vstr _, h => by simp [Val.beq] at h
  | .vdict xs, .vlist _, h => by simp [Val.beq] at h

theorem Val.eqList_of_beq : ∀ as bs : List Val, Val.beqList as bs = true → as = bs
  | [], [], _ => rfl
  | [], _ :: _, h => by simp [Val.beqList] at h
  | _ :: _, [], h => by simp [Val.beqList] at h
  | a :: as, b :: bs, h => by
      have h' := h
      simp only [Val.beqList, Bool.and_eq_true] at h'
      rw [Val.eq_of_beq a b h'.1, Val.eqList_of_beq as bs h'.2]

theorem Val.eqDict_of_beq : ∀ as bs : List (String × Val), Val.beqDict as bs = true → as = bs
  | [], [], _ => rfl
  | [], _ :: _, h => by simp [Val.beqDict] at h
  | _ :: _, [], h => by simp [Val.beqDict] at h
  | (ka, va) :: as, (kb, vb) :: bs, h => by
      have h' := h
      simp only [Val.beqDict, Bool.and_eq_true, beq_iff_eq] at h'
      rw [h'.1.1, Val.eq_of_beq va vb h'.1.2, Val.eqDict_of_beq as bs h'.2]

end

instance : BEq Val := ⟨Val.beq⟩

instance : LawfulBEq Val where
  eq_of_beq := Val.eq_of_beq _ _
  rfl := Val.beq_refl _

instance : DecidableEq Val := fun a b =>
  decidable_of_iff (Val.beq a b = true) ⟨Val.eq_of_beq a b, fun h => h ▸ Val.beq_refl a⟩

instance {ε α : Type} [DecidableEq ε] [DecidableEq α] : DecidableEq (Except ε α)
  | .ok a, .ok b => decidable_of_iff (a = b) (by simp)
  | .error a, .error b => decidable_of_iff (a = b) (by simp)
  | .ok _, .error _ => isFalse (by simp)
  | .error _, .ok _ => isFalse (by simp)

/-- Python truthiness (`bool(v)`) for the values of `Val`. -/
def pyTruthy : Val → Bool
  | .vnull => false
  | .vbool b => b
  | .vnum n => n != 0
  | .vstr s => s ≠ ""
  | .vlist xs => !xs.isEmpty
  | .vdict kvs => !kvs.isEmpty

/-- Python dictionary subscripting `d[k]`: the value stored under `k`, a
`KeyError` when the key is missing, a `TypeError` when `d` is not a dict. -/
def pyGetItem (d : Val) (k : String) : Except String Val :=
  match d with
  | .vdict kvs =>
      match kvs.find? (fun kv => kv.1 == k) with
      | some kv => .ok kv.2
      | none => .error ("KeyError: " ++ k)
  | _ => .error ("TypeError: value is not subscriptable by " ++ k)

/-- Python `d.get(k, default)`: the stored value when the key is present,
the default otherwise; an `AttributeError` when `d` is not a dict. -/
def pyDictGet (d : Val) (k : String) (default : Val) : Except String Val :=
  match d with
  | .vdict kvs =>
      match kvs.find? (fun kv => kv.1 == k) with
      | some kv => .ok kv.2
      | none => .ok default
  | _ => .error ("AttributeError: value has no method get for key " ++ k)

/-- Python `len(v)` for strings, lists and dicts; `TypeError` otherwise. -/
def pyLen (v : Val) : Except String Nat :=
  match v with
  | .vstr s => .ok s.length
  | .vlist xs => .ok xs.length
  | .vdict kvs => .ok kvs.length
  | _ => .error "TypeError: object has no len"

/-- Python iteration `for x in v`: the element sequence of a list, the
characters of a string, the keys of a dict; `TypeError` otherwise. -/
def pyIter (v : Val) : Except String (List Val) :=
  match v with
  | .vlist xs => .ok xs
  | .vstr s => .ok (s.data.map (fun c => .vstr (String.mk [c])))
  | .vdict kvs => .ok (kvs.map (fun kv => .vstr kv.1))
  | _ => .error "TypeError: object is not iterable"

mutual

/-- Python `repr` for `Val` (ASCII quoting approximated by plain quotes;
only its shape, not its escaping, matters to the embedded code). -/
def pyRepr : Val → String
  | .vnull => "None"
  | .vbool b => if b then "True" else "False"
  | .vnum n => toString n
  | .vstr s => "'" ++ s ++ "'"
  | .vlist xs => "[" ++ pyReprList xs ++ "]"
  | .vdict kvs => "\x7b" ++ pyReprDict kvs ++ "\x7d"

def pyReprList : List Val → String
  | [] => ""
  | [a] => pyRepr a
  | a :: b :: as => pyRepr a ++ ", " ++ pyReprList (b :: as)

def pyReprDict : List (String × Val) → String
  | [] => ""
  | [(k, v)] => "'" ++ k ++ "': " ++ pyRepr v
  | (k, v) :: b :: as => "'" ++ k ++ "': " ++ pyRepr v ++ ", " ++ pyReprDict (b :: as)

end

/-- Python `str(v)` as used by f-string interpolation: a string interpolates
verbatim, everything else through `repr`. -/
def pyStr (v : Val) : String :=
  match v with
  | .vstr s => s
  | v => pyRepr v

/-- A Python `for` loop that maps each element through a fallible body,
collecting results in order; the first raised exception aborts the loop. -/
def exceptMapList (f : α → Except ε β) : List α → Except ε (List β)
  | [] => .ok []
  | x :: xs => do
      let y ← f x
      let ys ← exceptMapList f xs
      pure (y :: ys)

/-- A Python `for` loop threading an accumulator through a fallible body. -/
def exceptFoldList (f : σ → α → Except ε σ) (init : σ) : List α → Except ε σ
  | [] => .ok init
  | x :: xs => do
      let acc ← f init x
      exceptFoldList f acc xs

/-- ASCII lowering of a character (`str.lower` restricted to ASCII, which is
all the rate-limit detector inspects). -/
def lowerChar (c : Char) : Char :=
  if 'A' ≤ c ∧ c ≤ 'Z' then Char.ofNat (c.toNat + 32) else c

/-- ASCII `str.lower`. -/
def lowerAscii (s : String) : String := String.mk (s.data.map lowerChar)

/-- Boolean list-prefix test. -/
def listPrefixOf : List Char → List Char → Bool
  | [], _ => true
  | _ :: _, [] => false
  | a :: as, b :: bs => a == b && listPrefixOf as bs

/-- Boolean contiguous-sublist test, modelling Python's `in` on strings. -/
def listContainsSub (needle : List Char) : List Char → Bool
  | [] => listPrefixOf needle []
  | c :: rest => listPrefixOf needle (c :: rest) || listContainsSub needle rest

/-- Python `needle in hay` for strings. -/
def strContains (hay needle : String) : Bool := listContainsSub needle.data hay.data

/-- The rate-limit test of `safe_run` (github_service.py line 125):
`'429' in text or 'rate limit' in text.lower()`. -/
def isRateLimitText (text : String) : Bool :=
  strContains text "429" || strContains (lowerAscii text) "rate limit"

/-- Outcome of a `safe_run` call: a returned value, a re-raised invocation
error, or the terminal `RuntimeError` raised after the retry loop. -/
inductive SafeRunOutcome where
  | success : String → SafeRunOutcome
  | raised : String → SafeRunOutcome
  | exhausted : String → SafeRunOutcome
deriving DecidableEq

/-- Observable trace of a `safe_run` call: its outcome, the argument of each
`time.sleep` in order, and how many times the wrapped invocation ran. -/
structure SafeRunTrace where
  outcome : SafeRunOutcome
  sleeps : List Nat
  invocations : Nat
deriving DecidableEq

/-- The retry loop body of `safe_run` (github_service.py lines 119-132),
iterating over the remaining attempt numbers of `range(1, max_retries + 1)`.
`invokeAt n` is the oracle outcome of `self.agent_executor.invoke` on the
n-th attempt. -/
def safeRunLoop (invokeAt : Nat → Except String String) (backoff_secs max_retries : Nat) :
    List Nat → List Nat → Nat → SafeRunTrace
  | [], sleeps, calls =>
      ⟨.exhausted ("Failed after " ++ toString max_retries ++ " rate-limit retries"),
        sleeps, calls⟩
  | attempt :: rest, sleeps, calls =>
      match invokeAt attempt with
      | .ok out => ⟨.success out, sleeps, calls + 1⟩
      | .error e =>
          if isRateLimitText e then
            safeRunLoop invokeAt backoff_secs max_retries rest
              (sleeps ++ [backoff_secs * 2 ^ (attempt - 1)]) (calls + 1)
          else ⟨.raised e, sleeps, calls + 1⟩

/-- `GitHubService.safe_run` (github_service.py lines 114-132) with the
`None`-or-settings defaulting of its arguments already resolved. -/
def safe_run (invokeAt : Nat → Except String String) (max_retries backoff_secs : Nat) :
    SafeRunTrace :=
  safeRunLoop invokeAt backoff_secs max_retries (List.range' 1 max_retries) [] 0

/-- The degraded record produced on a JSON parse failure
(github_service.py line 149). -/
def sentinelRecord (raw item : String) : Val :=
  .vdict [("error_parsing_JSON", .vstr raw), ("path", .vstr item), ("id", .vstr item)]

/-- `GitHubService.extract_file_metadata` (github_service.py lines 134-153).
`loads` is the `json.loads` oracle (`none` models `JSONDecodeError`);
`llmRaw item` is the text returned by the `safe_run` call for file `item`
(prompt construction is absorbed into the oracle). -/
def extract_file_metadata (loads : String → Option Val) (llmRaw : String → String)
    (file_list : List String) : List Val :=
  file_list.map (fun item =>
    let raw := llmRaw item
    match loads raw with
    | some obj => obj
    | none => sentinelRecord raw item)
def extract_metadata_template_text : String :=
  "
    You are a universal code metadata extractor. Input variables:
      - repo_id: \x7brepo_id\x7d
      - file: \x7bfile\x7d
      - project_metadata: \x7bproject_metadata\x7d

    First:
      * Use project_metadata to inform your heuristics.
      * Determine the language of the file from extension and context.

    Then:
      * Use the get_github_content tool to fetch the file content.

    Analyze the file thoroughly and produce **only** one JSON object matching this schema:

    \x7b\x7b
      \"id\": \"<unique identifier>\",
      \"path\": \"<file path>\",
      \"language\": \"<detected language>\",
      \"inferred_role\": \"<e.g., model/entity, controller, utility, entrypoint, component, null if unclear>\",
      \"module_docstring_or_header\": \"<top-level comment or null>\",
      \"classes\": [
        \x7b\x7b
          \"name\": \"<class name>\",
          \"bases_or_extends\": [\"<base classes>\"],
          \"docstring_or_javadoc\": \"<class-level comment or null>\",
          \"fields\": [
            \x7b\x7b
              \"name\": \"<field name>\",
              \"type\": \"<type or null>\",
              \"default\": \"<default value or null>\",
              \"annotations_or_attributes\": [\"<annotations>\"],
              \"visibility\": \"<public/private/etc. or null>\",
              \"description\": \"<description or null>\"
            \x7d\x7d
          ],
          \"methods\": [
            \x7b\x7b
              \"name\": \"<method name>\",
              \"decorators_or_annotations\": [\"<decorators>\"],
              \"signature\": \"<full signature>\",
              \"parameters\": [
                \x7b\x7b
                  \"name\": \"<param name>\",
                  \"type\": \"<type or null>\",
                  \"default\": \"<default or null>\",
                  \"description\": \"<description or null>\"
                \x7d\x7d
              ],
              \"return_type\": \"<return type or null>\",
              \"visibility\": \"<visibility or null>\",
              \"docstring_or_comment\": \"<comment or null>\"
            \x7d\x7d
          ]
        \x7d\x7d
      ],
      \"functions\": [
        \x7b\x7b
          \"name\": \"<function name>\",
          \"decorators_or_annotations\": [\"<decorators>\"],
          \"signature\": \"<full signature>\",
          \"parameters\": [
            \x7b\x7b
              \"name\": \"<param name>\",
              \"type\": \"<type or null>\",
              \"default\": \"<default or null>\",
              \"description\": \"<description or null>\"
            \x7d\x7d
          ],
          \"return_type\": \"<return type or null>\",
          \"visibility\": \"<visibility or null>\",
          \"docstring_or_comment\": \"<comment or null>\"
        \x7d\x7d
      ],
      \"exports_or_public_api\": [\"<exported symbols>\"],
      \"examples\": [
        \x7b\x7b
          \"description\": \"<what the snippet illustrates>\",
          \"code\": \"<fenced code block>\"
        \x7d\x7d
      ]
    \x7d\x7d
    "

def project_metadata_template_text : String :=
  "
            You are a project analyzer. Input: a list of file paths in a repository, provided as the variable \x7bfile_list\x7d.

            Task:
            1. Infer what programming languages are present.
            2. Infer frameworks, runtimes, or platforms in use (e.g., FastAPI, Django, Spring Boot, Android, React, Node.js, etc.).
            3. Infer high-level project types/purposes (e.g., web backend API, mobile app, frontend SPA, library, CLI tool).
            4. Provide the key signals/evidence you used.

            Output **only** this JSON object, exactly matching this schema (no extra text):

            \x7b\x7b
              \"languages\": [\"<language>\", \"...\"],
              \"frameworks\": [\"<framework or platform>\", \"...\"],
              \"project_types\": [\"<e.g., web backend>\", \"...\"],
              \"evidence\": \"<short explanation mentioning key files or patterns that led to these inferences>\"
            \x7d\x7d
            "

def readme_template_system : String :=
  "
    You are an expert README file writer. You have been given complete JSON metadata for a codebase.

    Analyze the JSON metadata and generate a comprehensive README file that includes:
    1. **Project Overview**: A brief description of the project, its purpose, and main features.
    2. **Installation Instructions**: Step-by-step guide on how to install and set up the project.
    3. **Usage Examples**: Code snippets demonstrating how to use the main features of the project.
    4. **Technologies Used**: List of major libraries or technologies used in the project.
    5. **Features**: High-level features or responsibilities implemented in the project.

    Use emojis to enhance the readability and engagement of the README. For example:
    - Use 🚀 for installation instructions
    - Use 📚 for usage examples
    - Use 🛠️ for technologies used
    - Use ✨ for features

    Ensure the README is well-structured, easy to read, and follows best practices for documentation.
    "

def readme_template_human : String :=
  "Generate the complete README now. Cover every file provided:

\x7bfile_data\x7d

Generate the documentation section now:"

def api_docs_template_system : String :=
  "
    You are an expert documentation writer. Generate a Markdown documentation section for the provided files.
    Only use the information provided—do not hallucinate any endpoints, classes, functions, or parameters.

    Your output should include:

    1. **Module Sections**
       For each file/module:
       - **File path** (as a level‑2 heading: ## path/to/file.py)
       - Module description from docstring

    2. **Classes**
       Under each module (if any):
       - Class name and base classes (level‑3 heading: ### ClassName)
       - Class description
       - Methods table:
         | Method | Signature | Return Type | Description |
         |--------|-----------|-------------|-------------|

    3. **Functions**
       Under each module (if any):
       - Function name (level‑3 heading: ### function_name())
       - Function signature and description
       - Parameters table:
         | Name | Type | Default | Description |
         |------|------|---------|-------------|

    4. **Examples**
       If code examples exist, include them in fenced ```python blocks under an **Examples** subsection.

    Make sure your Markdown is clean and well‑formatted.
    "

def api_docs_template_human : String :=
  "Generate documentation for these files. Cover every file provided:

\x7bfile_data\x7d

Generate the documentation section now:"

def html_docs_template_system : String :=
  "
You are an agent really good at HTML and CSS. You will be given markdown data. Your task is to convert this markdown data into a beautiful documentation page using HTML and CSS. 

Requirements:
1. Give only HTML data without any other texts
2. Include a table of contents as sidebar
3. Table of contents should have links to each file, class, and function in the documentation
4. Use modern, clean CSS styling
5. Make it responsive and professional looking
"

def html_docs_template_human : String :=
  "Convert this markdown data to HTML:

\x7bmarkdown_data\x7d"


/-- A document placed in the Chroma vector store by `create_rag_index`
(documentation_service.py lines 42-110). The metadata dict always has the
fixed shape `path / file_id / doc_type / full_json` built there. -/
structure Document where
  page_content : String
  m_path : Val
  m_file_id : Val
  m_doc_type : String
  m_full_json : String
deriving DecidableEq

/-- The text of one class entry of the classes document
(documentation_service.py lines 56-61). -/
def classEntryText (cls : Val) : Except String String := do
  let name ← pyGetItem cls "name"
  let bases ← pyDictGet cls "bases_or_extends" (.vlist [])
  let docstring ← pyDictGet cls "docstring_or_javadoc" (.vstr "None")
  let methodsVal ← pyDictGet cls "methods" (.vlist [])
  let methods ← pyIter methodsVal
  let methodNames ← exceptMapList (fun m => pyGetItem m "name") methods
  pure ("\nClass: " ++ pyStr name ++
    "\nBase Classes: " ++ pyStr bases ++
    "\nDocstring: " ++ pyStr docstring ++
    "\nMethods: " ++ pyStr (.vlist methodNames) ++ "\n")

/-- The text of one function entry of the functions document
(documentation_service.py lines 76-83). -/
def functionEntryText (func : Val) : Except String String := do
  let name ← pyGetItem func "name"
  let signature ← pyDictGet func "signature" (.vstr "None")
  let decorators ← pyDictGet func "decorators_or_annotations" (.vlist [])
  let returnType ← pyDictGet func "return_type" (.vstr "None")
  let docstring ← pyDictGet func "docstring_or_comment" (.vstr "None")
  let params ← pyDictGet func "parameters" (.vlist [])
  pure ("\nFunction: " ++ pyStr name ++
    "\nSignature: " ++ pyStr signature ++
    "\nDecorators: " ++ pyStr decorators ++
    "\nReturn Type: " ++ pyStr returnType ++
    "\nDocstring: " ++ pyStr docstring ++
    "\nParameters: " ++ pyStr params ++ "\n")

/-- The text of one example entry of the examples document
(documentation_service.py lines 98-101). -/
def exampleEntryText (ex : Val) : Except String String := do
  let description ← pyDictGet ex "description" (.vstr "None")
  let code ← pyDictGet ex "code" (.vstr "None")
  pure ("\nDescription: " ++ pyStr description ++ "\nCode: " ++ pyStr code ++ "\n")

/-- The documents emitted for one `file_obj` by the loop body of
`create_rag_index` (documentation_service.py lines 30-110): one overview
document, then one classes / functions / examples document for each facet
whose value is truthy. `dumps` is the `json.dumps` oracle. -/
def createDocsForFile (dumps : Val → String) (file_obj : Val) : Except String (List Document) := do
  let file_path ← pyGetItem file_obj "path"
  let moduleDoc ← pyDictGet file_obj "module_docstring_or_header" (.vstr "None")
  let nClasses ← pyLen (← pyDictGet file_obj "classes" (.vlist []))
  let nFunctions ← pyLen (← pyDictGet file_obj "functions" (.vlist []))
  let nExamples ← pyLen (← pyDictGet file_obj "examples" (.vlist []))
  let language ← pyDictGet file_obj "language" (.vstr "Unknown")
  let file_summary :=
    "\nFILE_OVERVIEW: " ++ pyStr file_path ++
    "\nModule Docstring: " ++ pyStr moduleDoc ++
    "\nTotal Classes: " ++ toString nClasses ++
    "\nTotal Functions: " ++ toString nFunctions ++
    "\nTotal Examples: " ++ toString nExamples ++
    "\nFile Type: " ++ pyStr language ++ "\n"
  let file_id ← pyGetItem file_obj "id"
  let full_json := dumps file_obj
  let overviewDoc : Document := ⟨file_summary, file_path, file_id, "file_overview", full_json⟩
  let classesVal ← pyDictGet file_obj "classes" (.vlist [])
  let classDocs ←
    if pyTruthy classesVal then do
      let classes ← pyIter classesVal
      let entries ← exceptMapList classEntryText classes
      pure [(⟨"CLASSES_IN_FILE: " ++ pyStr file_path ++ "\n\n" ++ String.join entries,
        file_path, file_id, "classes", full_json⟩ : Document)]
    else pure []
  let functionsVal ← pyDictGet file_obj "functions" (.vlist [])
  let functionDocs ←
    if pyTruthy functionsVal then do
      let functions ← pyIter functionsVal
      let entries ← exceptMapList functionEntryText functions
      pure [(⟨"FUNCTIONS_IN_FILE: " ++ pyStr file_path ++ "\n\n" ++ String.join entries,
        file_path, file_id, "functions", full_json⟩ : Document)]
    else pure []
  let examplesVal ← pyDictGet file_obj "examples" (.vlist [])
  let exampleDocs ←
    if pyTruthy examplesVal then do
      let examples ← pyIter examplesVal
      let entries ← exceptMapList exampleEntryText examples
      pure [(⟨"EXAMPLES_IN_FILE: " ++ pyStr file_path ++ "\n\n" ++ String.join entries,
        file_path, file_id, "examples", full_json⟩ : Document)]
    else pure []
  pure ([overviewDoc] ++ classDocs ++ functionDocs ++ exampleDocs)

/-- The full document list built by `create_rag_index`
(documentation_service.py lines 28-110); the Chroma store is modelled by
this list, which its similarity search draws from. -/
def create_rag_index_documents (dumps : Val → String) (file_objs : List Val) :
    Except String (List Document) := do
  let docss ← exceptMapList (createDocsForFile dumps) file_objs
  pure docss.flatten

/-- Python-style positional binding for the two-parameter method
`create_rag_index(self, file_objs, repo_id)`: a call with any other number
of positional arguments raises `TypeError` before the body runs. The pair
returned on success is (document list, persist directory). -/
def create_rag_index_call (dumps : Val → String) (args : List Val) :
    Except String (List Document × String) :=
  match args with
  | [fileObjsArg, repoIdArg] => do
      match repoIdArg with
      | .vstr repo_id => do
          let file_objs ← pyIter fileObjsArg
          let docs ← create_rag_index_documents dumps file_objs
          pure (docs, "./chroma_repo_index/" ++ repo_id)
      | _ => .error "TypeError: can only concatenate str to str"
  | [_] => .error "TypeError: create_rag_index() missing 1 required positional argument: repo_id"
  | _ => .error "TypeError: create_rag_index() called with wrong number of arguments"

/-- The `except` branch of `_generate_docs_with_chunked_processing`
(documentation_service.py line 183): when opening a persisted store fails it
evaluates `self.create_rag_index(file_objs)` — a call with one positional
argument. -/
def vectorstoreFallback (dumps : Val → String) (file_objs : List Val) :
    Except String (List Document × String) :=
  create_rag_index_call dumps [.vlist file_objs]

/-- The body of the `get_all_files_from_vectorstore` loop for one file path
(documentation_service.py lines 126-134): a similarity search with the fixed
query, filtering to documents whose stored path equals the queried path, and
decoding the first match's `full_json`; `none` is "absent". `search q k` is
the oracle for `vectorstore.similarity_search(q, k=k)`. -/
def queryFileOverview (search : String → Nat → List Document)
    (loads : String → Option Val) (file_path : Val) : Except String (Option Val) :=
  let docs := search ("FILE_OVERVIEW: " ++ pyStr file_path) 10
  let file_docs := docs.filter (fun d => d.m_path == file_path)
  match file_docs with
  | [] => .ok none
  | d :: _ =>
      if d.m_full_json ≠ "" then
        match loads d.m_full_json with
        | some v => .ok (some v)
        | none => .error "json.JSONDecodeError"
      else .ok none

/-- An insertion-ordered Python dict with `Val` keys, as built by
`get_all_files_from_vectorstore` and the chunk loop. -/
abbrev AData := List (Val × Val)

/-- Python `d[k] = v` on an insertion-ordered dict: replace the stored
value in place when the key exists, append otherwise. -/
def pyInsert (d : AData) (k v : Val) : AData :=
  match d with
  | [] => [(k, v)]
  | kv :: rest => if kv.1 == k then (kv.1, v) :: rest else kv :: pyInsert rest k v

/-- Python `d.get(k)` / `k in d` on an insertion-ordered dict. -/
def alookup (d : AData) (k : Val) : Option Val :=
  match d with
  | [] => none
  | kv :: rest => if kv.1 == k then some kv.2 else alookup rest k

/-- One iteration of the `get_all_files_from_vectorstore` loop
(documentation_service.py lines 125-134). -/
def vectorLookupStep (search : String → Nat → List Document)
    (loads : String → Option Val) (acc : AData) (fp : Val) : Except String AData := do
  match ← queryFileOverview search loads fp with
  | some v => pure (pyInsert acc fp v)
  | none => pure acc

/-- `DocumentationService.get_all_files_from_vectorstore`
(documentation_service.py lines 121-136). -/
def get_all_files_from_vectorstore (search : String → Nat → List Document)
    (loads : String → Option Val) (file_paths : List Val) : Except String AData :=
  exceptFoldList (vectorLookupStep search loads) [] file_paths

/-- One iteration of the missing-file loop (documentation_service.py lines
190-192): insert the record under its path when that path is missing. -/
def addMissingStep (missing_files : List Val) (acc : AData) (file_obj : Val) :
    Except String AData := do
  let p ← pyGetItem file_obj "path"
  pure (if missing_files.contains p then pyInsert acc p file_obj else acc)

/-- The missing-file reconciliation of `_generate_docs_with_chunked_processing`
(documentation_service.py lines 188-192): `missing_files` is the set
difference of the input paths and the keys recovered from the store, and
every original record whose path is missing is inserted. -/
def addMissingFiles (file_objs : List Val) (file_paths : List Val) (a0 : AData) :
    Except String AData :=
  let missing_files := file_paths.filter (fun p => (alookup a0 p).isNone)
  exceptFoldList (addMissingStep missing_files) a0 file_objs

/-- The chunking expression of documentation_service.py line 194:
`[file_paths[i:i + chunk_size] for i in range(0, len(file_paths), chunk_size)]`,
with `file_paths[i:i + c] = (file_paths.drop i).take c` and
`range(0, n, c)` of length `⌈n / c⌉`. -/
def fileChunks (chunk_size : Nat) (file_paths : List α) : List (List α) :=
  (List.range' 0 ((file_paths.length + chunk_size - 1) / chunk_size) chunk_size).map
    (fun i => (file_paths.drop i).take chunk_size)

/-- The per-file block of `formatted_data` rendered by the chunk loop
(documentation_service.py lines 211-225). -/
def formatFileBlock (file_path : Val) (file_obj : Val) : Except String String := do
  let moduleDoc ← pyDictGet file_obj "module_docstring_or_header" (.vstr "None")
  let base := "\n--- FILE: " ++ pyStr file_path ++ " ---\n" ++
    "Module Docstring: " ++ pyStr moduleDoc ++ "\n"
  let classesVal ← pyDictGet file_obj "classes" (.vlist [])
  let classesPart ←
    if pyTruthy classesVal then do
      let classes ← pyIter (← pyGetItem file_obj "classes")
      let entries ← exceptMapList (fun cls => do
        let name ← pyGetItem cls "name"
        let docstring ← pyDictGet cls "docstring_or_javadoc" (.vstr "No description")
        let methodsVal ← pyDictGet cls "methods" (.vlist [])
        let methods ← pyIter methodsVal
        let methodLines ← exceptMapList (fun m => do
          let mName ← pyGetItem m "name"
          let mDoc ← pyDictGet m "docstring_or_comment" (.vstr "No description")
          pure ("    * " ++ pyStr mName ++ ": " ++ pyStr mDoc ++ "\n")) methods
        pure ("  - " ++ pyStr name ++ ": " ++ pyStr docstring ++ "\n" ++
          String.join methodLines)) classes
      pure ("Classes:\n" ++ String.join entries)
    else pure ""
  let functionsVal ← pyDictGet file_obj "functions" (.vlist [])
  let functionsPart ←
    if pyTruthy functionsVal then do
      let functions ← pyIter (← pyGetItem file_obj "functions")
      let entries ← exceptMapList (fun func => do
        let name ← pyGetItem func "name"
        let docstring ← pyDictGet func "docstring_or_comment" (.vstr "No description")
        let signature ← pyDictGet func "signature" (.vstr "Unknown")
        pure ("  - " ++ pyStr name ++ ": " ++ pyStr docstring ++ "\n" ++
          "    Signature: " ++ pyStr signature ++ "\n")) functions
      pure ("Functions:\n" ++ String.join entries)
    else pure ""
  pure (base ++ classesPart ++ functionsPart)

/-- The `formatted_data` accumulation over one chunk's resolved records
(documentation_service.py lines 209-225). -/
def formatChunkData (chunk_data : AData) : Except String String :=
  exceptFoldList (fun acc kv => do
    pure (acc ++ (← formatFileBlock kv.1 kv.2))) "" chunk_data

/-- The body of the chunk loop (documentation_service.py lines 202-229):
gather the chunk's resolved records, render them, and make one LLM call;
the result pair is (rendered chunk data, reply). -/
def chunkCall (invoke : String → String) (all_file_data : AData)
    (chunk : List Val) : Except String (String × String) := do
  let chunk_data := chunk.foldl (fun acc p =>
    match alookup all_file_data p with
    | some v => pyInsert acc p v
    | none => acc) ([] : AData)
  let formatted_data ← formatChunkData chunk_data
  pure (formatted_data, invoke formatted_data)

/-- The chunk-processing pipeline of
`_generate_docs_with_chunked_processing` given a vector store
(documentation_service.py lines 185-231). `invoke` is the LLM oracle applied
to the rendered chunk data (the fixed prompt-template wrapper of lines
197-200 and 227 is absorbed into the oracle). On success it returns the
final concatenated document together with the list of LLM calls made, each
as a (rendered chunk data, reply) pair in issue order. -/
def generate_docs_with_chunked_processing (invoke : String → String)
    (search : String → Nat → List Document) (loads : String → Option Val)
    (file_objs : List Val) (chunk_size : Nat) :
    Except String (String × List (String × String)) := do
  let file_paths ← exceptMapList (fun file_obj => pyGetItem file_obj "path") file_objs
  let a0 ← get_all_files_from_vectorstore search loads file_paths
  let all_file_data ← addMissingFiles file_objs file_paths a0
  let file_chunks := fileChunks chunk_size file_paths
  let calls ← exceptMapList (chunkCall invoke all_file_data) file_chunks
  pure (String.intercalate "\n\n" (calls.map (fun c => c.2)), calls)

/-- The value of a class attribute of `Templates` (templates.py). The
`html_docs_template` literal uses commas instead of colons, so Python parses
it as a 4-element set, not a dict — recorded by `tset`. -/
inductive TemplateAttr where
  | tdict : String → String → TemplateAttr
  | tset : List String → TemplateAttr
  | tstr : String → TemplateAttr
  | tmethod : TemplateAttr
deriving DecidableEq

/-- The attribute table of the `Templates` class (templates.py lines 1-203):
every attribute reachable as `templates.<name>`. -/
def templatesAttrs : List (String × TemplateAttr) :=
  [("readme_template", .tdict readme_template_system readme_template_human),
   ("api_docs_template", .tdict api_docs_template_system api_docs_template_human),
   ("html_docs_template", .tset ["system", html_docs_template_system,
      "human", html_docs_template_human]),
   ("extract_metadata_template", .tstr extract_metadata_template_text),
   ("project_metadata_template", .tstr project_metadata_template_text),
   ("github_response_template", .tmethod),
   ("github_response_filter_template", .tmethod)]

/-- Python attribute lookup `templates.<name>`. -/
def templatesGetAttr (name : String) : Option TemplateAttr :=
  (templatesAttrs.find? (fun kv => kv.1 == name)).map (fun kv => kv.2)

/-- `DocumentationService.generate_html_docs` (documentation_service.py
lines 154-164). Line 156 reads `templates.html_template`; a missing
attribute raises `AttributeError`. Were the attribute a system/human dict,
the method would make one `invoke` call on the formatted messages and
return its content. -/
def generate_html_docs (invoke : String → String) (markdown_content : String) :
    Except String String :=
  match templatesGetAttr "html_template" with
  | none => .error "AttributeError: Templates object has no attribute html_template"
  | some (.tdict system human) =>
      .ok (invoke (system ++ "\n" ++ human ++ "\n" ++ markdown_content))
  | some _ => .error "TypeError: object is not subscriptable"

/-- Claim C2: with base backoff `B`, rate-limit failures on attempts 1 and 2
and success on attempt 3, `safe_run` sleeps `B` then `2*B` and returns the
attempt-3 result after exactly 3 invocations; and with `max_retries = 2` and
permanent rate-limit failures it ends in the terminal retries-exhausted
error — a distinct outcome from re-raising the underlying cause — after
exactly 2 invocations and no success. -/
theorem safe_run_backoff_sequencing_and_exhaustion (B : Nat) :
    (∀ (invokeAt : Nat → Except String String) (max_retries : Nat) (v e1 e2 : String),
      3 ≤ max_retries →
      invokeAt 1 = .error e1 → isRateLimitText e1 = true →
      invokeAt 2 = .error e2 → isRateLimitText e2 = true →
      invokeAt 3 = .ok v →
      safe_run invokeAt max_retries B = ⟨.success v, [B, 2 * B], 3⟩)
    ∧
    (∀ (invokeAt : Nat → Except String String) (e1 e2 : String),
      invokeAt 1 = .error e1 → isRateLimitText e1 = true →
      invokeAt 2 = .error e2 → isRateLimitText e2 = true →
      safe_run invokeAt 2 B =
        ⟨.exhausted "Failed after 2 rate-limit retries", [B, 2 * B], 2⟩ ∧
      (∀ e, (safe_run invokeAt 2 B).outcome ≠ .raised e) ∧
      (∀ o, (safe_run invokeAt 2 B).outcome ≠ .success o)) := by
  constructor
  · intro invokeAt max_retries v e1 e2 hm h1 hr1 h2 hr2 h3
    obtain ⟨k, rfl⟩ : ∃ k, max_retries = k + 3 := ⟨max_retries - 3, by omega⟩
    have hr : List.range' 1 (k + 3) = 1 :: 2 :: 3 :: List.range' 4 k := by
      simp [List.range'_succ]
    unfold safe_run
    rw [hr]
    simp [safeRunLoop, h1, h2, h3, hr1, hr2, pow_succ, Nat.mul_comm]
  · intro invokeAt e1 e2 h1 hr1 h2 hr2
    have hrun : safe_run invokeAt 2 B =
        ⟨.exhausted "Failed after 2 rate-limit retries", [B, 2 * B], 2⟩ := by
      have hr : List.range' 1 2 = [1, 2] := by decide
      unfold safe_run
      rw [hr]
      simp [safeRunLoop, h1, h2, hr1, hr2, pow_succ, Nat.mul_comm]
      rfl
    refine ⟨hrun, ?_, ?_⟩
    · intro e
      rw [hrun]
      simp
    · intro o
      rw [hrun]
      simp

def c2InvokeAt : Nat → Except String String := fun i =>
  if i = 3 then .ok "third attempt reply" else .error "HTTP 429 Too Many Requests"

def c2PermFail : Nat → Except String String := fun _ => .error "Rate Limit exceeded"

theorem safe_run_backoff_sequencing_witness :
    safe_run c2InvokeAt 5 7 = ⟨.success "third attempt reply", [7, 2 * 7], 3⟩ ∧
    safe_run c2PermFail 2 7 =
      ⟨.exhausted "Failed after 2 rate-limit retries", [7, 2 * 7], 2⟩ := by
  refine ⟨?_, ?_⟩
  · exact (safe_run_backoff_sequencing_and_exhaustion 7).1 c2InvokeAt 5
      "third attempt reply" "HTTP 429 Too Many Requests" "HTTP 429 Too Many Requests"
      (by decide) (by decide) (by decide) (by decide) (by decide) (by decide)
  · exact (((safe_run_backoff_sequencing_and_exhaustion 7).2 c2PermFail
      "Rate Limit exceeded" "Rate Limit exceeded"
      (by decide) (by decide) (by decide) (by decide))).1

/-- Claim C7: a failure whose text carries no rate-limit signature
propagates at once: with a non-rate-limit error on attempt 1, `safe_run`
re-raises that error with no sleeps and a single invocation. -/
theorem safe_run_non_rate_limit_propagates (invokeAt : Nat → Except String String)
    (max_retries backoff_secs : Nat) (e : String)
    (hm : 1 ≤ max_retries) (h1 : invokeAt 1 = .error e)
    (hnr : isRateLimitText e = false) :
    safe_run invokeAt max_retries backoff_secs = ⟨.raised e, [], 1⟩ := by
  obtain ⟨k, rfl⟩ : ∃ k, max_retries = k + 1 := ⟨max_retries - 1, by omega⟩
  have hr : List.range' 1 (k + 1) = 1 :: List.range' 2 k := by
    simp [List.range'_succ]
  unfold safe_run
  rw [hr]
  simp [safeRunLoop, h1, hnr]

theorem safe_run_non_rate_limit_witness :
    safe_run (fun _ => .error "ValueError: bad input") 5 10 =
      ⟨.raised "ValueError: bad input", [], 1⟩ :=
  safe_run_non_rate_limit_propagates (fun _ => .error "ValueError: bad input") 5 10
    "ValueError: bad input" (by decide) (by decide) (by decide)

/-- Claim C3: metadata extraction yields exactly one record per input path,
in input order (the i-th record corresponds to the i-th path of the zip);
a path whose LLM output fails to parse yields the sentinel
`error_parsing_JSON / path / id` record rather than raising, and other
paths' records are unaffected. -/
theorem extract_file_metadata_one_record_per_path (loads : String → Option Val)
    (llmRaw : String → String) (file_list : List String) :
    (extract_file_metadata loads llmRaw file_list).length = file_list.length ∧
    (∀ pr ∈ file_list.zip (extract_file_metadata loads llmRaw file_list),
      (loads (llmRaw pr.1) = none → pr.2 = sentinelRecord (llmRaw pr.1) pr.1) ∧
      (∀ v, loads (llmRaw pr.1) = some v → pr.2 = v)) := by
  constructor
  · simp [extract_file_metadata]
  · have hzip : ∀ l : List String,
        l.zip (extract_file_metadata loads llmRaw l) =
          l.map (fun item => (item,
            match loads (llmRaw item) with
            | some obj => obj
            | none => sentinelRecord (llmRaw item) item)) := by
      intro l
      induction l with
      | nil => rfl
      | cons x xs ih => simp [extract_file_metadata, List.zip] at ih ⊢; exact ih
    intro pr hpr
    rw [hzip] at hpr
    obtain ⟨item, hitem, rfl⟩ := List.mem_map.mp hpr
    constructor
    · intro hnone
      simp [hnone]
    · intro v hsome
      simp [hsome]

def c3Loads : String → Option Val := fun s => if s = "good" then some (.vstr "V") else none

def c3Raw : String → String := fun f => if f = "a" then "good" else "bad"

theorem extract_file_metadata_witness :
    (extract_file_metadata c3Loads c3Raw ["a", "b"]).length = 2 ∧
    (extract_file_metadata c3Loads c3Raw ["a", "b"] =
      [.vstr "V", sentinelRecord "bad" "b"]) ∧
    sentinelRecord "bad" "b" = sentinelRecord (c3Raw "b") "b" := by
  refine ⟨(extract_file_metadata_one_record_per_path c3Loads c3Raw ["a", "b"]).1, by decide, ?_⟩
  exact ((extract_file_metadata_one_record_per_path c3Loads c3Raw ["a", "b"]).2
    ("b", sentinelRecord "bad" "b") (by decide)).1 (by decide)

/-- Claim C8: the sentinel degraded record (fields `error_parsing_JSON`,
`path`, `id` only) is safe downstream: index building emits exactly the one
overview document for it (no classes / functions / examples documents, all
missing lists defaulting to empty), and the chunk renderer produces its
text block without error, defaulting the module docstring and omitting the
class and function subsections. -/
theorem sentinel_record_safe_downstream (dumps : Val → String) (raw item : String) :
    createDocsForFile dumps (sentinelRecord raw item) =
      .ok [⟨"\nFILE_OVERVIEW: " ++ item ++
        "\nModule Docstring: None\nTotal Classes: 0\nTotal Functions: 0" ++
        "\nTotal Examples: 0\nFile Type: Unknown\n",
        .vstr item, .vstr item, "file_overview", dumps (sentinelRecord raw item)⟩] ∧
    formatFileBlock (.vstr item) (sentinelRecord raw item) =
      .ok ("\n--- FILE: " ++ item ++ " ---\nModule Docstring: None\n") := by
  constructor
  · simp [createDocsForFile, sentinelRecord, pyGetItem, pyDictGet, pyLen, pyTruthy,
      pyStr, pyRepr, Bind.bind, Except.bind, pure, Except.pure, String.append_assoc,
      show (toString (0 : Nat) : String) = "0" from rfl]
  · simp [formatFileBlock, sentinelRecord, pyGetItem, pyDictGet, pyTruthy, pyStr,
      pyRepr, Bind.bind, Except.bind, pure, Except.pure, String.append_assoc]

/-- Claim C9 (refuted by the code): in the no-index branch, after failing to
open a persisted store, the fallback on documentation_service.py line 183
calls the two-parameter `create_rag_index` with a single positional
argument, so the branch raises `TypeError` instead of building a fresh
index — for every input list and serializer. -/
theorem vectorstore_fallback_raises_type_error (dumps : Val → String)
    (file_objs : List Val) :
    vectorstoreFallback dumps file_objs =
      .error "TypeError: create_rag_index() missing 1 required positional argument: repo_id" :=
  rfl

/-- Claim C10 (refuted by the code): `generate_html_docs` reads the
attribute `templates.html_template`, but the `Templates` class defines no
such attribute (the HTML prompt lives under `html_docs_template`, itself a
4-element set rather than a system/human dict), so every call raises
`AttributeError` before any LLM call is made. -/
theorem generate_html_docs_raises_attribute_error :
    templatesGetAttr "html_template" = none ∧
    templatesGetAttr "html_docs_template" =
      some (.tset ["system", html_docs_template_system,
        "human", html_docs_template_human]) ∧
    (∀ (invoke : String → String) (markdown_content : String),
      generate_html_docs invoke markdown_content =
        .error "AttributeError: Templates object has no attribute html_template") :=
  ⟨rfl, rfl, fun _ _ => rfl⟩

/-- Claim C5: for every file record, index building emits one overview
document plus one document per truthy facet among classes, functions and
examples; in particular a record with empty classes, non-empty functions
and empty examples contributes exactly 2 documents (overview and
functions), not 4. -/
theorem create_rag_index_one_doc_per_nonempty_facet (dumps : Val → String)
    (file_obj : Val) (docs : List Document) (cv fv ev : Val)
    (hcv : pyDictGet file_obj "classes" (.vlist []) = .ok cv)
    (hfv : pyDictGet file_obj "functions" (.vlist []) = .ok fv)
    (hev : pyDictGet file_obj "examples" (.vlist []) = .ok ev)
    (h : createDocsForFile dumps file_obj = .ok docs) :
    docs.map (fun d => d.m_doc_type) =
      "file_overview" :: ((if pyTruthy cv then ["classes"] else []) ++
        (if pyTruthy fv then ["functions"] else []) ++
        (if pyTruthy ev then ["examples"] else [])) ∧
    (cv = .vlist [] → ev = .vlist [] → pyTruthy fv = true →
      docs.length = 2 ∧ docs.map (fun d => d.m_doc_type) = ["file_overview", "functions"]) := by
  have hmain : docs.map (fun d => d.m_doc_type) =
      "file_overview" :: ((if pyTruthy cv then ["classes"] else []) ++
        (if pyTruthy fv then ["functions"] else []) ++
        (if pyTruthy ev then ["examples"] else [])) := by
    simp only [createDocsForFile, Bind.bind, Except.bind, pure, Except.pure] at h
    rw [hcv, hfv, hev] at h
    repeat' split at h
    all_goals first
      | exact Except.noConfusion h
      | (injection h with h2; subst h2; simp_all)
  refine ⟨hmain, ?_⟩
  intro hc he hf
  rw [hc, he, hf] at hmain
  have hlen := congrArg List.length hmain
  simp only [List.length_map] at hlen
  refine ⟨?_, ?_⟩
  · simpa [pyTruthy] using hlen
  · simpa [pyTruthy] using hmain

def c5Obj : Val :=
  .vdict [("path", .vstr "pkg/mod.py"), ("id", .vstr "pkg/mod.py"),
    ("classes", .vlist []),
    ("functions", .vlist [.vdict [("name", .vstr "run")]]),
    ("examples", .vlist [])]

def c5Docs : List Document :=
  (createDocsForFile (fun _ => "serialized") c5Obj).toOption.getD []

theorem create_rag_index_facet_witness :
    c5Docs.length = 2 ∧ c5Docs.map (fun d => d.m_doc_type) = ["file_overview", "functions"] :=
  (create_rag_index_one_doc_per_nonempty_facet (fun _ => "serialized") c5Obj c5Docs
    (.vlist []) (.vlist [.vdict [("name", .vstr "run")]]) (.vlist [])
    (by decide) (by decide) (by decide) (by decide)).2 rfl rfl (by decide)

theorem fileChunks_nil (chunk_size : Nat) : fileChunks chunk_size ([] : List α) = [] := by
  have hz : (chunk_size - 1) / chunk_size = 0 := by
    rcases chunk_size with _ | n
    · simp
    · exact Nat.div_eq_of_lt (by omega)
  simp [fileChunks, hz]

theorem fileChunks_cons (chunk_size : Nat) (hC : 0 < chunk_size) (xs : List α)
    (hne : xs ≠ []) :
    fileChunks chunk_size xs =
      xs.take chunk_size :: fileChunks chunk_size (xs.drop chunk_size) := by
  have hn : 1 ≤ xs.length := List.length_pos.mpr hne
  have hk : (xs.length + chunk_size - 1) / chunk_size =
      (xs.length - 1) / chunk_size + 1 := by
    have h1 : xs.length + chunk_size - 1 = (xs.length - 1) + chunk_size := by omega
    rw [h1, Nat.add_div_right _ hC]
  have hk' : ((xs.drop chunk_size).length + chunk_size - 1) / chunk_size =
      (xs.length - 1) / chunk_size := by
    rw [List.length_drop]
    rcases le_or_lt xs.length chunk_size with hle | hlt
    · have h0 : xs.length - chunk_size = 0 := by omega
      rw [h0]
      have hz1 : (0 + chunk_size - 1) / chunk_size = 0 := Nat.div_eq_of_lt (by omega)
      rw [hz1]
      exact (Nat.div_eq_of_lt (by omega)).symm
    · have h1 : xs.length - chunk_size + chunk_size - 1 =
          (xs.length - chunk_size - 1) + chunk_size := by omega
      have h2 : xs.length - 1 = (xs.length - chunk_size - 1) + chunk_size := by omega
      rw [h1, Nat.add_div_right _ hC, h2, Nat.add_div_right _ hC]
  unfold fileChunks
  rw [hk, hk', List.range'_succ]
  simp only [List.map_cons, List.drop_zero, Nat.zero_add]
  congr 1
  have hshift := (List.map_add_range' chunk_size 0 ((xs.length - 1) / chunk_size) chunk_size).symm
  rw [Nat.add_zero] at hshift
  rw [hshift, List.map_map]
  refine List.map_congr_left ?_
  intro i _
  simp only [Function.comp_apply]
  rw [List.drop_drop]

theorem fileChunks_flatten (chunk_size : Nat) (hC : 0 < chunk_size) (xs : List α) :
    (fileChunks chunk_size xs).flatten = xs := by
  rcases eq_or_ne xs [] with rfl | hne
  · simp [fileChunks_nil]
  · rw [fileChunks_cons chunk_size hC xs hne]
    rw [List.flatten_cons, fileChunks_flatten chunk_size hC (xs.drop chunk_size)]
    exact List.take_append_drop chunk_size xs
termination_by xs.length
decreasing_by
  have h1 : 0 < xs.length := List.length_pos.mpr hne
  simp only [List.length_drop]
  omega

theorem fileChunks_mem_size (chunk_size : Nat) (hC : 0 < chunk_size) (xs : List α) :
    ∀ c ∈ fileChunks chunk_size xs, 1 ≤ c.length ∧ c.length ≤ chunk_size := by
  rcases eq_or_ne xs [] with rfl | hne
  · simp [fileChunks_nil]
  · rw [fileChunks_cons chunk_size hC xs hne]
    intro c hc
    rcases List.mem_cons.mp hc with rfl | hmem
    · have h1 : 0 < xs.length := List.length_pos.mpr hne
      simp only [List.length_take]
      omega
    · exact fileChunks_mem_size chunk_size hC (xs.drop chunk_size) c hmem
termination_by xs.length
decreasing_by
  have h1 : 0 < xs.length := List.length_pos.mpr hne
  simp only [List.length_drop]
  omega

theorem fileChunks_dropLast_full (chunk_size : Nat) (hC : 0 < chunk_size) (xs : List α) :
    ∀ c ∈ (fileChunks chunk_size xs).dropLast, c.length = chunk_size := by
  rcases eq_or_ne xs [] with rfl | hne
  · simp [fileChunks_nil]
  · rw [fileChunks_cons chunk_size hC xs hne]
    rcases eq_or_ne (xs.drop chunk_size) [] with hrest | hrest
    · rw [hrest, fileChunks_nil]
      simp
    · intro c hc
      have htail : fileChunks chunk_size (xs.drop chunk_size) ≠ [] := by
        rw [fileChunks_cons chunk_size hC _ hrest]
        simp
      rw [List.dropLast_cons_of_ne_nil htail] at hc
      rcases List.mem_cons.mp hc with rfl | hmem
      · have hlong : chunk_size < xs.length := by
          by_contra hle
          exact hrest (List.drop_eq_nil_of_le (by omega))
        simp only [List.length_take]
        omega
      · exact fileChunks_dropLast_full chunk_size hC (xs.drop chunk_size) c hmem
termination_by xs.length
decreasing_by
  have h1 : 0 < xs.length := List.length_pos.mpr hne
  simp only [List.length_drop]
  omega

theorem exceptMapList_ok_length (f : α → Except ε β) :
    ∀ (xs : List α) (ys : List β), exceptMapList f xs = .ok ys → ys.length = xs.length
  | [], ys, h => by
      simp only [exceptMapList] at h
      injection h with h2
      simp [← h2]
  | x :: xs, ys, h => by
      simp only [exceptMapList, Bind.bind, Except.bind, pure, Except.pure] at h
      cases hfx : f x with
      | error e => rw [hfx] at h; exact Except.noConfusion h
      | ok y =>
        rw [hfx] at h
        cases hrec : exceptMapList f xs with
        | error e => rw [hrec] at h; exact Except.noConfusion h
        | ok ys' =>
          rw [hrec] at h
          injection h with h2
          simp [← h2, exceptMapList_ok_length f xs ys' hrec]

theorem exceptMapList_ok_mem (f : α → Except ε β) :
    ∀ (xs : List α) (ys : List β), exceptMapList f xs = .ok ys →
      ∀ y ∈ ys, ∃ x ∈ xs, f x = .ok y
  | [], ys, h => by
      simp only [exceptMapList] at h
      injection h with h2
      simp [← h2]
  | x :: xs, ys, h => by
      simp only [exceptMapList, Bind.bind, Except.bind, pure, Except.pure] at h
      cases hfx : f x with
      | error e => rw [hfx] at h; exact Except.noConfusion h
      | ok y =>
        rw [hfx] at h
        cases hrec : exceptMapList f xs with
        | error e => rw [hrec] at h; exact Except.noConfusion h
        | ok ys' =>
          rw [hrec] at h
          injection h with h2
          intro z hz
          rw [← h2] at hz
          rcases List.mem_cons.mp hz with rfl | hmem
          · exact ⟨x, List.mem_cons_self x xs, hfx⟩
          · obtain ⟨x', hx', hfx'⟩ := exceptMapList_ok_mem f xs ys' hrec z hmem
            exact ⟨x', List.mem_cons_of_mem x hx', hfx'⟩

/-- Claim C1: the chunked synthesizer slices the ordered path list into
`⌈N / C⌉` contiguous chunks preserving input order (their concatenation is
the input list, every chunk has size 1..C, every non-final chunk exactly C);
it makes one LLM call per chunk and returns the per-chunk outputs joined in
chunk order with a blank line between them; with 23 paths and chunk size 10
the chunk sizes are 10, 10, 3. -/
theorem chunked_synthesizer_partition_and_concatenation
    (invoke : String → String) (search : String → Nat → List Document)
    (loads : String → Option Val) (file_objs : List Val) (chunk_size : Nat)
    (file_paths : List Val) (out : String) (calls : List (String × String))
    (hC : 0 < chunk_size)
    (hp : exceptMapList (fun file_obj => pyGetItem file_obj "path") file_objs = .ok file_paths)
    (h : generate_docs_with_chunked_processing invoke search loads file_objs chunk_size =
      .ok (out, calls)) :
    (fileChunks chunk_size file_paths).flatten = file_paths ∧
    (fileChunks chunk_size file_paths).length =
      (file_paths.length + chunk_size - 1) / chunk_size ∧
    (∀ c ∈ fileChunks chunk_size file_paths, 1 ≤ c.length ∧ c.length ≤ chunk_size) ∧
    (∀ c ∈ (fileChunks chunk_size file_paths).dropLast, c.length = chunk_size) ∧
    calls.length = (fileChunks chunk_size file_paths).length ∧
    out = String.intercalate "\n\n" (calls.map (fun call => call.2)) ∧
    (∀ call ∈ calls, call.2 = invoke call.1) ∧
    (fileChunks 10 (List.range 23)).map List.length = [10, 10, 3] := by
  simp only [generate_docs_with_chunked_processing, Bind.bind, Except.bind, pure,
    Except.pure] at h
  rw [hp] at h
  dsimp only at h
  cases ha0 : get_all_files_from_vectorstore search loads file_paths with
  | error e => rw [ha0] at h; exact Except.noConfusion h
  | ok a0 =>
  rw [ha0] at h
  dsimp only at h
  cases ham : addMissingFiles file_objs file_paths a0 with
  | error e => rw [ham] at h; exact Except.noConfusion h
  | ok all_file_data =>
  rw [ham] at h
  dsimp only at h
  cases hcalls : exceptMapList (chunkCall invoke all_file_data)
      (fileChunks chunk_size file_paths) with
  | error e => rw [hcalls] at h; exact Except.noConfusion h
  | ok calls' =>
  rw [hcalls] at h
  dsimp only at h
  injection h with h2
  rw [Prod.mk.injEq] at h2
  obtain ⟨ho, hc⟩ := h2
  subst hc
  refine ⟨fileChunks_flatten chunk_size hC file_paths, by simp [fileChunks],
    fileChunks_mem_size chunk_size hC file_paths,
    fileChunks_dropLast_full chunk_size hC file_paths,
    exceptMapList_ok_length _ _ _ hcalls, ho.symm, ?_, by decide⟩
  intro call hcall
  obtain ⟨chunk, _, hbody⟩ := exceptMapList_ok_mem _ _ _ hcalls call hcall
  simp only [chunkCall, Bind.bind, Except.bind, pure, Except.pure] at hbody
  cases hfmt : formatChunkData (chunk.foldl (fun acc p =>
      match alookup all_file_data p with
      | some v => pyInsert acc p v
      | none => acc) ([] : AData)) with
  | error e => rw [hfmt] at hbody; exact Except.noConfusion hbody
  | ok formatted_data =>
    rw [hfmt] at hbody
    injection hbody with h3
    rw [← h3]

def c1Invoke : String → String := fun _ => "SECTION"

def c1Search : String → Nat → List Document := fun _ _ => []

def c1Loads : String → Option Val := fun _ => none

def c1Objs : List Val :=
  [.vdict [("path", .vstr "a.py")], .vdict [("path", .vstr "b.py")],
   .vdict [("path", .vstr "c.py")]]

def c1Paths : List Val := [.vstr "a.py", .vstr "b.py", .vstr "c.py"]

def c1Run : String × List (String × String) :=
  (generate_docs_with_chunked_processing c1Invoke c1Search c1Loads c1Objs 2).toOption.getD
    ("", [])

theorem chunked_synthesizer_witness :
    (fileChunks 2 c1Paths).flatten = c1Paths ∧
    (fileChunks 2 c1Paths).length = (c1Paths.length + 2 - 1) / 2 ∧
    (∀ c ∈ fileChunks 2 c1Paths, 1 ≤ c.length ∧ c.length ≤ 2) ∧
    (∀ c ∈ (fileChunks 2 c1Paths).dropLast, c.length = 2) ∧
    c1Run.2.length = (fileChunks 2 c1Paths).length ∧
    c1Run.1 = String.intercalate "\n\n" (c1Run.2.map (fun call => call.2)) ∧
    (∀ call ∈ c1Run.2, call.2 = c1Invoke call.1) ∧
    (fileChunks 10 (List.range 23)).map List.length = [10, 10, 3] :=
  chunked_synthesizer_partition_and_concatenation c1Invoke c1Search c1Loads c1Objs 2
    c1Paths c1Run.1 c1Run.2 (by decide) (by decide) rfl

theorem alookup_pyInsert_self (d : AData) (k v : Val) :
    alookup (pyInsert d k v) k = some v := by
  induction d with
  | nil => simp [pyInsert, alookup]
  | cons kv rest ih =>
    by_cases h : kv.1 = k <;> simp [pyInsert, alookup, h, ih]

theorem alookup_pyInsert_ne (d : AData) (k v q : Val) (h : q ≠ k) :
    alookup (pyInsert d k v) q = alookup d q := by
  induction d with
  | nil => simp [pyInsert, alookup, Ne.symm h]
  | cons kv rest ih =>
    by_cases hk : kv.1 = k
    · by_cases hq : kv.1 = q
      · exact absurd (hq.symm.trans hk) h
      · simp [pyInsert, alookup, hk, hq, Ne.symm h]
    · by_cases hq : kv.1 = q <;> simp [pyInsert, alookup, hk, hq, h, ih]

theorem alookup_isSome_iff_mem_keys (d : AData) (k : Val) :
    (alookup d k).isSome ↔ k ∈ d.map Prod.fst := by
  induction d with
  | nil => simp [alookup]
  | cons kv rest ih =>
    by_cases h : kv.1 = k
    · simp [alookup, h]
    · simp only [alookup, List.map_cons, List.mem_cons]
      rw [if_neg (by simp [h]), ih]
      constructor
      · exact Or.inr
      · rintro (hh | hh)
        · exact absurd hh.symm h
        · exact hh

theorem keys_pyInsert (d : AData) (k v : Val) :
    (pyInsert d k v).map Prod.fst =
      if (alookup d k).isSome then d.map Prod.fst else d.map Prod.fst ++ [k] := by
  induction d with
  | nil => simp [pyInsert, alookup]
  | cons kv rest ih =>
    by_cases h : kv.1 = k
    · simp [pyInsert, alookup, h]
    · have h1 : pyInsert (kv :: rest) k v = kv :: pyInsert rest k v := by
        simp [pyInsert, h]
      have h2 : alookup (kv :: rest) k = alookup rest k := by
        simp [alookup, h]
      rw [h1, h2, List.map_cons, List.map_cons, ih]
      split <;> simp

theorem keys_nodup_pyInsert (d : AData) (k v : Val)
    (h : (d.map Prod.fst).Nodup) : ((pyInsert d k v).map Prod.fst).Nodup := by
  rw [keys_pyInsert]
  by_cases hs : (alookup d k).isSome = true
  · simpa [hs] using h
  · rw [if_neg hs]
    have hk : k ∉ d.map Prod.fst := by
      rw [← alookup_isSome_iff_mem_keys]
      simpa using hs
    simp [List.nodup_append, h, hk]

theorem get_all_files_fold_spec (search : String → Nat → List Document)
    (loads : String → Option Val) :
    ∀ (fps : List Val) (acc a : AData),
      exceptFoldList (vectorLookupStep search loads) acc fps = .ok a →
      (∀ q, (alookup a q).isSome → (alookup acc q).isSome ∨ q ∈ fps) ∧
      ((acc.map Prod.fst).Nodup → (a.map Prod.fst).Nodup)
  | [], acc, a, h => by
      simp only [exceptFoldList] at h
      injection h with h2
      subst h2
      exact ⟨fun q hq => Or.inl hq, id⟩
  | fp :: fps, acc, a, h => by
      simp only [exceptFoldList, Bind.bind, Except.bind] at h
      cases hstep : vectorLookupStep search loads acc fp with
      | error e => rw [hstep] at h; exact Except.noConfusion h
      | ok acc1 =>
        rw [hstep] at h
        dsimp only at h
        have hacc1 : (∀ q, (alookup acc1 q).isSome → (alookup acc q).isSome ∨ q = fp) ∧
            ((acc.map Prod.fst).Nodup → (acc1.map Prod.fst).Nodup) := by
          simp only [vectorLookupStep, Bind.bind, Except.bind, pure, Except.pure] at hstep
          cases hq : queryFileOverview search loads fp with
          | error e => rw [hq] at hstep; exact Except.noConfusion hstep
          | ok r =>
            rw [hq] at hstep
            dsimp only at hstep
            cases r with
            | none =>
              injection hstep with h3
              subst h3
              exact ⟨fun q hq2 => Or.inl hq2, id⟩
            | some v =>
              injection hstep with h3
              subst h3
              constructor
              · intro q hq2
                by_cases hqe : q = fp
                · exact Or.inr hqe
                · rw [alookup_pyInsert_ne acc fp v q hqe] at hq2
                  exact Or.inl hq2
              · exact fun hn => keys_nodup_pyInsert acc fp v hn
        obtain ⟨hrec1, hrec2⟩ := get_all_files_fold_spec search loads fps acc1 a h
        constructor
        · intro q hq2
          rcases hrec1 q hq2 with hs | hmem
          · rcases hacc1.1 q hs with hs' | hqe
            · exact Or.inl hs'
            · exact Or.inr (by simp [hqe])
          · exact Or.inr (List.mem_cons_of_mem fp hmem)
        · exact fun hn => hrec2 (hacc1.2 hn)

theorem add_missing_fold_spec (M : List Val) :
    ∀ (objs fps : List Val) (acc a : AData),
      exceptMapList (fun file_obj => pyGetItem file_obj "path") objs = .ok fps →
      fps.Nodup →
      exceptFoldList (addMissingStep M) acc objs = .ok a →
      (∀ q, q ∉ fps → alookup a q = alookup acc q) ∧
      (∀ q, q ∉ M → alookup a q = alookup acc q) ∧
      (∀ pr ∈ objs.zip fps, pr.2 ∈ M → alookup a pr.2 = some pr.1) ∧
      ((acc.map Prod.fst).Nodup → (a.map Prod.fst).Nodup) ∧
      (∀ q, (alookup a q).isSome ↔ ((alookup acc q).isSome ∨ (q ∈ fps ∧ q ∈ M)))
  | [], fps, acc, a, hp, hnd, h => by
      simp only [exceptMapList] at hp
      injection hp with hp2
      subst hp2
      simp only [exceptFoldList] at h
      injection h with h2
      subst h2
      exact ⟨fun q _ => rfl, fun q _ => rfl, by simp, id, by simp⟩
  | fo :: objs, fps, acc, a, hp, hnd, h => by
      simp only [exceptMapList, Bind.bind, Except.bind, pure, Except.pure] at hp
      cases hpath : pyGetItem fo "path" with
      | error e => rw [hpath] at hp; exact Except.noConfusion hp
      | ok p =>
      rw [hpath] at hp
      try dsimp only at hp
      cases hrest : exceptMapList (fun file_obj => pyGetItem file_obj "path") objs with
      | error e => rw [hrest] at hp; exact Except.noConfusion hp
      | ok fps' =>
      rw [hrest] at hp
      try dsimp only at hp
      injection hp with hp2
      subst hp2
      have hndp : p ∉ fps' := (List.nodup_cons.mp hnd).1
      have hnd' : fps'.Nodup := (List.nodup_cons.mp hnd).2
      simp only [exceptFoldList, Bind.bind, Except.bind] at h
      cases hstep : addMissingStep M acc fo with
      | error e => rw [hstep] at h; exact Except.noConfusion h
      | ok acc1 =>
      rw [hstep] at h
      try dsimp only at h
      simp only [addMissingStep, Bind.bind, Except.bind, pure, Except.pure, hpath] at hstep
      try dsimp only at hstep
      injection hstep with hstep2
      obtain ⟨ih1, ih2, ih3, ih4, ih5⟩ :=
        add_missing_fold_spec M objs fps' acc1 a hrest hnd' h
      by_cases hmem : p ∈ M
      · have hc : M.contains p = true := by
          simpa [List.contains, List.elem_iff] using hmem
        rw [if_pos hc] at hstep2
        subst hstep2
        refine ⟨?_, ?_, ?_, ?_, ?_⟩
        · intro q hq
          have hq1 : q ∉ fps' := fun hh => hq (List.mem_cons_of_mem p hh)
          have hq2 : q ≠ p := fun hh => hq (by simp [hh])
          rw [ih1 q hq1, alookup_pyInsert_ne acc p fo q hq2]
        · intro q hq
          have hq2 : q ≠ p := fun hh => hq (hh ▸ hmem)
          have hq1 : alookup a q = alookup (pyInsert acc p fo) q := ih2 q hq
          rw [hq1, alookup_pyInsert_ne acc p fo q hq2]
        · intro pr hpr hprM
          rcases List.mem_cons.mp hpr with heq | hmem2
          · subst heq
            rw [ih1 p hndp, alookup_pyInsert_self acc p fo]
          · exact ih3 pr hmem2 hprM
        · exact fun hn => ih4 (keys_nodup_pyInsert acc p fo hn)
        · intro q
          rw [ih5 q]
          by_cases hq2 : q = p
          · subst hq2
            simp [alookup_pyInsert_self acc q fo, hmem]
          · rw [alookup_pyInsert_ne acc p fo q hq2]
            simp only [List.mem_cons]
            constructor
            · rintro (hs | ⟨hf, hM2⟩)
              · exact Or.inl hs
              · exact Or.inr ⟨Or.inr hf, hM2⟩
            · rintro (hs | ⟨hf | hf, hM2⟩)
              · exact Or.inl hs
              · exact absurd hf hq2
              · exact Or.inr ⟨hf, hM2⟩
      · have hc : M.contains p = false := by
          rw [← Bool.not_eq_true]
          simpa [List.contains, List.elem_iff] using hmem
        rw [if_neg (by rw [hc]; simp)] at hstep2
        subst hstep2
        refine ⟨?_, ?_, ?_, ih4, ?_⟩
        · intro q hq
          exact ih1 q (fun hh => hq (List.mem_cons_of_mem p hh))
        · exact ih2
        · intro pr hpr hprM
          rcases List.mem_cons.mp hpr with heq | hmem2
          · subst heq
            exact absurd hprM hmem
          · exact ih3 pr hmem2 hprM
        · intro q
          rw [ih5 q]
          by_cases hq2 : q = p
          · subst hq2
            simp [hmem]
          · simp only [List.mem_cons]
            constructor
            · rintro (hs | ⟨hf, hM2⟩)
              · exact Or.inl hs
              · exact Or.inr ⟨Or.inr hf, hM2⟩
            · rintro (hs | ⟨hf | hf, hM2⟩)
              · exact Or.inl hs
              · exact absurd hf hq2
              · exact Or.inr ⟨hf, hM2⟩

/-- Claim C4: with unique paths, the synthesizer's resolved per-file data
set has exactly one entry per input path (no duplicates, none lost):
every path the index query misses maps to its originally extracted record,
and every index hit is kept unchanged. -/
theorem resolved_file_data_complete (search : String → Nat → List Document)
    (loads : String → Option Val) (file_objs file_paths : List Val) (a0 a : AData)
    (hp : exceptMapList (fun file_obj => pyGetItem file_obj "path") file_objs =
      .ok file_paths)
    (hnd : file_paths.Nodup)
    (ha0 : get_all_files_from_vectorstore search loads file_paths = .ok a0)
    (ham : addMissingFiles file_objs file_paths a0 = .ok a) :
    (a.map Prod.fst).Nodup ∧
    a.length = file_paths.length ∧
    (∀ p, p ∈ file_paths ↔ (alookup a p).isSome) ∧
    (∀ p v, alookup a0 p = some v → alookup a p = some v) ∧
    (∀ pr ∈ file_objs.zip file_paths, alookup a0 pr.2 = none →
      alookup a pr.2 = some pr.1) := by
  simp only [get_all_files_from_vectorstore] at ha0
  have hg := get_all_files_fold_spec search loads file_paths [] a0 ha0
  simp only [addMissingFiles] at ham
  obtain ⟨had1, had2, had3, had4, had5⟩ :=
    add_missing_fold_spec (file_paths.filter (fun p => (alookup a0 p).isNone))
      file_objs file_paths a0 a hp hnd ham
  have hg1 : ∀ q, (alookup a0 q).isSome → q ∈ file_paths := by
    intro q hq
    rcases hg.1 q hq with hs | hmem
    · simp [alookup] at hs
    · exact hmem
  have hkeys0 : (a0.map Prod.fst).Nodup := hg.2 (by simp)
  have hkeysa : (a.map Prod.fst).Nodup := had4 hkeys0
  have hmemiff : ∀ p, p ∈ file_paths ↔ (alookup a p).isSome := by
    intro p
    rw [had5 p]
    constructor
    · intro hf
      by_cases hs : (alookup a0 p).isSome
      · exact Or.inl hs
      · refine Or.inr ⟨hf, ?_⟩
        rw [List.mem_filter]
        exact ⟨hf, by simpa [Option.isNone_iff_eq_none, Option.not_isSome_iff_eq_none]
          using hs⟩
    · rintro (hs | ⟨hf, _⟩)
      · exact hg1 p hs
      · exact hf
  refine ⟨hkeysa, ?_, hmemiff, ?_, ?_⟩
  · have h1 : (a.map Prod.fst).toFinset = file_paths.toFinset := by
      ext q
      rw [List.mem_toFinset, List.mem_toFinset, ← alookup_isSome_iff_mem_keys,
        ← hmemiff q]
    have h2 := congrArg Finset.card h1
    rw [List.toFinset_card_of_nodup hkeysa, List.toFinset_card_of_nodup hnd,
      List.length_map] at h2
    exact h2
  · intro p v hv
    have hnM : p ∉ file_paths.filter (fun q => (alookup a0 q).isNone) := by
      rw [List.mem_filter]
      simp [hv]
    rw [had2 p hnM, hv]
  · intro pr hpr hnone
    apply had3 pr hpr
    rw [List.mem_filter]
    exact ⟨(List.of_mem_zip hpr).2, by simp [hnone]⟩

def c4Doc : Document :=
  ⟨"\nFILE_OVERVIEW: p1\n", .vstr "p1", .vstr "i1", "file_overview", "J1"⟩

def c4Search : String → Nat → List Document := fun _ _ => [c4Doc]

def c4Loads : String → Option Val := fun s =>
  if s = "J1" then some (.vstr "indexed record") else none

def c4Objs : List Val :=
  [.vdict [("path", .vstr "p1")], .vdict [("path", .vstr "p2")]]

def c4Paths : List Val := [.vstr "p1", .vstr "p2"]

def c4A0 : AData :=
  (get_all_files_from_vectorstore c4Search c4Loads c4Paths).toOption.getD []

def c4A : AData := (addMissingFiles c4Objs c4Paths c4A0).toOption.getD []

theorem resolved_file_data_witness :
    (c4A.map Prod.fst).Nodup ∧
    c4A.length = c4Paths.length ∧
    (∀ p, p ∈ c4Paths ↔ (alookup c4A p).isSome) ∧
    (∀ p v, alookup c4A0 p = some v → alookup c4A p = some v) ∧
    (∀ pr ∈ c4Objs.zip c4Paths, alookup c4A0 pr.2 = none →
      alookup c4A pr.2 = some pr.1) :=
  resolved_file_data_complete c4Search c4Loads c4Objs c4Paths c4A0 c4A
    (by decide) (by decide) rfl rfl

theorem createDocsForFile_path_and_json (dumps : Val → String) (file_obj : Val)
    (ds : List Document) (h : createDocsForFile dumps file_obj = .ok ds) :
    ∀ d ∈ ds, pyGetItem file_obj "path" = .ok d.m_path ∧
      d.m_full_json = dumps file_obj := by
  simp only [createDocsForFile, Bind.bind, Except.bind, pure, Except.pure] at h
  repeat' split at h
  all_goals first
    | exact Except.noConfusion h
    | (injection h with h2; subst h2;
       simp only [List.cons_append, List.nil_append, List.forall_mem_cons,
         List.forall_mem_nil, and_true];
       simp_all)

theorem create_rag_index_documents_path_and_json (dumps : Val → String)
    (file_objs : List Val) (docs : List Document)
    (h : create_rag_index_documents dumps file_objs = .ok docs) :
    ∀ d ∈ docs, ∃ fo ∈ file_objs,
      pyGetItem fo "path" = .ok d.m_path ∧ d.m_full_json = dumps fo := by
  simp only [create_rag_index_documents, Bind.bind, Except.bind, pure, Except.pure] at h
  cases hm : exceptMapList (createDocsForFile dumps) file_objs with
  | error e => rw [hm] at h; exact Except.noConfusion h
  | ok docss =>
    rw [hm] at h
    injection h with h2
    subst h2
    intro d hd
    obtain ⟨ds, hds, hdmem⟩ := List.mem_flatten.mp hd
    obtain ⟨fo, hfo, hok⟩ := exceptMapList_ok_mem _ _ _ hm ds hds
    obtain ⟨hpath, hjson⟩ := createDocsForFile_path_and_json dumps fo ds hok d hdmem
    exact ⟨fo, hfo, hpath, hjson⟩

/-- Claim C6: against an index built from records with unique paths, the
overview query searches with the fixed string `FILE_OVERVIEW: <p>`, takes
the top 10 results, filters them to stored path equal to `p`, and — when the
round trip `loads (dumps record) = record` holds — returns the source
record that was serialized at build time when any retrieved document's path
matches, and absent when none does. -/
theorem query_overview_returns_source_record (dumps : Val → String)
    (search : String → Nat → List Document) (loads : String → Option Val)
    (file_objs : List Val) (docs : List Document) (fo p : Val)
    (hbuild : create_rag_index_documents dumps file_objs = .ok docs)
    (hsearch : ∀ q k, ∀ d ∈ search q k, d ∈ docs)
    (hfo : fo ∈ file_objs) (hfop : pyGetItem fo "path" = .ok p)
    (huniq : ∀ fo' ∈ file_objs, ∀ p', pyGetItem fo' "path" = .ok p' → p' = p → fo' = fo)
    (hround : ∀ fo' ∈ file_objs, loads (dumps fo') = some fo' ∧ dumps fo' ≠ "") :
    ((search ("FILE_OVERVIEW: " ++ pyStr p) 10).filter (fun d => d.m_path == p) ≠ [] →
      queryFileOverview search loads p = .ok (some fo)) ∧
    ((search ("FILE_OVERVIEW: " ++ pyStr p) 10).filter (fun d => d.m_path == p) = [] →
      queryFileOverview search loads p = .ok none) := by
  constructor
  · intro hne
    cases hfd : (search ("FILE_OVERVIEW: " ++ pyStr p) 10).filter
        (fun d => d.m_path == p) with
    | nil => exact absurd hfd hne
    | cons d rest =>
      have hdmem : d ∈ (search ("FILE_OVERVIEW: " ++ pyStr p) 10).filter
          (fun d => d.m_path == p) := by
        rw [hfd]
        exact List.mem_cons_self d rest
      have hdpath : d.m_path = p := by
        have := List.of_mem_filter hdmem
        simpa using this
      have hdsearch : d ∈ search ("FILE_OVERVIEW: " ++ pyStr p) 10 :=
        List.mem_of_mem_filter hdmem
      have hddocs : d ∈ docs := hsearch _ _ d hdsearch
      obtain ⟨fo', hfo', hpath', hjson'⟩ :=
        create_rag_index_documents_path_and_json dumps file_objs docs hbuild d hddocs
      have hfoeq : fo' = fo := huniq fo' hfo' d.m_path hpath' hdpath
      subst hfoeq
      obtain ⟨hloads, hne2⟩ := hround fo' hfo'
      simp only [queryFileOverview, hfd]
      rw [hjson']
      simp [hne2, hloads]
  · intro hemp
    simp [queryFileOverview, hemp]

def c6Obj : Val := .vdict [("path", .vstr "p"), ("id", .vstr "i")]

def c6Dumps : Val → String := fun _ => "D"

def c6Loads : String → Option Val := fun s => if s = "D" then some c6Obj else none

def c6Docs : List Document :=
  (create_rag_index_documents c6Dumps [c6Obj]).toOption.getD []

def c6Search : String → Nat → List Document := fun _ _ => c6Docs

theorem query_overview_witness :
    (c6Search ("FILE_OVERVIEW: " ++ pyStr (.vstr "p")) 10).filter
      (fun d => d.m_path == Val.vstr "p") ≠ [] ∧
    queryFileOverview c6Search c6Loads (.vstr "p") = .ok (some c6Obj) := by
  refine ⟨by decide, ?_⟩
  refine (query_overview_returns_source_record c6Dumps c6Search c6Loads [c6Obj] c6Docs
    c6Obj (.vstr "p") rfl (fun _ _ d hd => hd) (by simp) (by decide) ?_ ?_).1 (by decide)
  · intro fo' hfo' p' _ _
    simpa using hfo'
  · intro fo' hfo'
    simp only [List.mem_singleton] at hfo'
    subst hfo'
    exact ⟨rfl, by decide⟩
